import Mathlib

/-!
Verification of the client-side state logic of the timeline/history-report UI
package (LWC components `timelineHistoryViewer`, `historyReportTab`, and the
timeline configuration modal).

The JavaScript component classes are shallowly embedded: each component's
mutable fields become a Lean structure, and each event handler becomes a pure
function from the pre-state (plus the outcome of any awaited remote call,
passed in as an `Except` value) to the post-state.  Remote calls themselves
are external inputs: a handler that awaits a fetch takes the fetch's result as
an argument, and additionally reports whether a fetch was issued (and at which
offset) so that no-fetch paths are observable.  JavaScript strings are
modelled as Lean `String`s, `null`/`undefined`-able record fields as
`Option String`, and JS truthiness of a string as the test against `""`.
-/

namespace HierarchySpec

/-! ## JavaScript string primitives -/

/-- Model of `String.prototype.toLowerCase` (character-wise lowercasing). -/
def jsToLower (s : String) : String := s.map Char.toLower

/-- Character-list test that `q` starts the list `s`
(the anchored test behind `String.prototype.includes`). -/
def chStarts : List Char → List Char → Bool
  | [], _ => true
  | _ :: _, [] => false
  | a :: as, b :: bs => a == b && chStarts as bs

/-- Character-list test that `q` occurs contiguously inside `s`. -/
def chHasSub (q : List Char) : List Char → Bool
  | [] => q.isEmpty
  | c :: t => chStarts q (c :: t) || chHasSub q t

/-- Model of `s.includes(q)` on JavaScript strings. -/
def jsIncludes (s q : String) : Bool := chHasSub q.toList s.toList

/-- Spec-side statement that `hay` contains `needle` as a case-insensitive
substring. -/
def ContainsCI (hay needle : String) : Prop :=
  ∃ p t, (jsToLower hay).toList = p ++ (jsToLower needle).toList ++ t

/-! ## JavaScript error objects and message extraction -/

/-- A JS error value as observed by the components: it may carry a
`body.message` field and a `message` field, either of which can be missing. -/
structure JsErr where
  bodyMessage : Option String
  message : Option String
deriving DecidableEq

/-- Model of `a || b` where `a` is a possibly-missing string (missing and `""`
are both falsy in JS). -/
def jsOrElse (a : Option String) (b : String) : String :=
  match a with
  | some s => if s = "" then b else s
  | none => b

/-- Model of `getErrorMessage` / `_extractMessage`:
`error?.body?.message || error?.message || 'An unexpected error occurred.'`. -/
def extractMessage (e : JsErr) : String :=
  jsOrElse e.bodyMessage (jsOrElse e.message "An unexpected error occurred.")

/-- A sample remote failure used by concrete witnesses. -/
def errBoom : JsErr := { bodyMessage := some "boom", message := none }

/-! ## Timeline viewer (`timelineHistoryViewer.js`) -/

namespace Timeline

/-- A timeline row as consumed by the viewer.  The component reads only
`objectApiName`; the remaining fields are carried opaquely. -/
structure Row where
  id : String
  objectApiName : String
  title : String
deriving DecidableEq

/-- One entry of `this.objectTypes` (a server-supplied object type plus the
client-only toggle state). -/
structure OType where
  label : String
  value : String
  selected : Bool
  variant : String
deriving DecidableEq, Inhabited

/-- The mutable fields of the `TimelineHistoryViewer` component that the
timeline logic reads or writes. -/
structure TState where
  timelineRecords : List Row
  filteredRecords : List Row
  objectTypes : List OType
  selectedFilters : List String
  isLoading : Bool
  hasError : Bool
  errorMessage : String
  totalRecordCount : Nat
  currentOffset : Nat
  hasMoreRecords : Bool
  maxRecords : Nat
deriving DecidableEq

/-- The component's initial field values (`maxRecords` defaults to 50). -/
def initState : TState :=
  { timelineRecords := [], filteredRecords := [], objectTypes := [],
    selectedFilters := [], isLoading := true, hasError := false,
    errorMessage := "", totalRecordCount := 0, currentOffset := 0,
    hasMoreRecords := false, maxRecords := 50 }

/-- `applyFilters`: recompute `filteredRecords` from `timelineRecords` and
`selectedFilters`. -/
def applyFilters (s : TState) : TState :=
  if s.selectedFilters.length = 0 then
    { s with filteredRecords := [] }
  else
    { s with filteredRecords :=
        s.timelineRecords.filter fun record =>
          s.selectedFilters.contains record.objectApiName }

/-- `wiredObjectTypes` success path: store the available types (all selected,
`brand` variant) and select every value. -/
def wiredObjectTypes (s : TState) (data : List (String × String)) : TState :=
  { s with
    objectTypes := data.map fun t =>
      { label := t.1, value := t.2, selected := true, variant := "brand" },
    selectedFilters := data.map fun t => t.2 }

/-- `wiredRecordCount` success path. -/
def wiredRecordCount (s : TState) (data : Nat) : TState :=
  { s with totalRecordCount := data }

/-- `wiredTimeline`: receives the initial page (or an error).  The handler
sets `isLoading := false`, stores the page, reapplies the filters, and then
computes the offset and the more-available flag from the page length and the
known total. -/
def wiredTimeline (s : TState) (result : Except JsErr (List Row)) : TState :=
  match result with
  | .ok data =>
    { applyFilters { s with isLoading := false, timelineRecords := data } with
        hasError := false
        currentOffset := data.length
        hasMoreRecords := decide (data.length < s.totalRecordCount) }
  | .error e =>
    { s with
        isLoading := false
        hasError := true
        errorMessage := extractMessage e }

/-- Model of `Array.prototype.findIndex`: index of the first element
satisfying `p`, or none (`-1` in JS). -/
def jsFindIndex (p : α → Bool) : List α → Option Nat
  | [] => none
  | x :: xs => if p x then some 0 else (jsFindIndex p xs).map (· + 1)

/-- `handleFilterClick`: toggle the type whose `value` is `filterValue`.
`isSelected` in the source is the negation of the found entry's previous
`selected` flag; the two branches below are that negation's two cases. -/
def handleFilterClick (s : TState) (filterValue : String) : TState :=
  match jsFindIndex (fun t => t.value = filterValue) s.objectTypes with
  | none => s
  | some index =>
    if (s.objectTypes.getD index default).selected then
      applyFilters
        { s with
            objectTypes := s.objectTypes.set index
              { s.objectTypes.getD index default with
                  selected := false, variant := "neutral" }
            selectedFilters := s.selectedFilters.filter fun f => f ≠ filterValue }
    else
      applyFilters
        { s with
            objectTypes := s.objectTypes.set index
              { s.objectTypes.getD index default with
                  selected := true, variant := "brand" }
            selectedFilters := s.selectedFilters ++ [filterValue] }

/-- `handleSelectAll`. -/
def handleSelectAll (s : TState) : TState :=
  applyFilters
    { s with
        objectTypes := s.objectTypes.map fun (t : OType) =>
          { t with selected := true, variant := "brand" }
        selectedFilters := (s.objectTypes.map fun (t : OType) =>
          { t with selected := true, variant := "brand" }).map fun t => t.value }

/-- `handleClearAll`. -/
def handleClearAll (s : TState) : TState :=
  applyFilters
    { s with
        objectTypes := s.objectTypes.map fun (t : OType) =>
          { t with selected := false, variant := "neutral" }
        selectedFilters := [] }

/-- `handleLoadMore`.  The boolean result records whether a fetch was issued
(the guard `if (!this.hasMoreRecords) return;` skips the fetch entirely). -/
def handleLoadMore (s : TState) (resp : Except JsErr (List Row)) : TState × Bool :=
  if !s.hasMoreRecords then (s, false)
  else
    match resp with
    | .ok moreRecords =>
      if 0 < moreRecords.length then
        (applyFilters
          { s with
              timelineRecords := s.timelineRecords ++ moreRecords
              currentOffset := s.currentOffset + moreRecords.length
              hasMoreRecords :=
                decide (s.currentOffset + moreRecords.length < s.totalRecordCount)
              isLoading := false }, true)
      else
        ({ s with hasMoreRecords := false, isLoading := false }, true)
    | .error e =>
      ({ s with
            hasError := true
            errorMessage := extractMessage e
            isLoading := false }, true)

/-- The viewer's operations, each paired with the outcome of any remote call
it awaits. -/
inductive TOp where
  | wireObjectTypes (data : List (String × String))
  | wireCount (n : Nat)
  | wireTimeline (res : Except JsErr (List Row))
  | filterClick (v : String)
  | selectAll
  | clearAll
  | loadMore (resp : Except JsErr (List Row))

/-- One operation of the viewer applied to a state. -/
def step (s : TState) : TOp → TState
  | .wireObjectTypes d => wiredObjectTypes s d
  | .wireCount n => wiredRecordCount s n
  | .wireTimeline r => wiredTimeline s r
  | .filterClick v => handleFilterClick s v
  | .selectAll => handleSelectAll s
  | .clearAll => handleClearAll s
  | .loadMore r => (handleLoadMore s r).1

/-- A sequence of viewer operations applied from a state. -/
def run (s : TState) (ops : List TOp) : TState := ops.foldl step s

/-- Every selected filter value is a value of the server-supplied available
object types. -/
def FiltersAvailable (s : TState) : Prop :=
  ∀ v ∈ s.selectedFilters, v ∈ s.objectTypes.map OType.value

instance (s : TState) : Decidable (FiltersAvailable s) :=
  List.decidableBAll _ s.selectedFilters

/-- Repeated load-more: each entry of `pages` is the server's response to the
next fetch; a fetch is issued only while `hasMoreRecords` holds.  Returns the
final state together with the sizes of the pages actually fetched. -/
def tlRun (s : TState) : List (List Row) → TState × List Nat
  | [] => (s, [])
  | p :: ps =>
    if s.hasMoreRecords then
      let r := tlRun ((handleLoadMore s (Except.ok p)).1) ps
      (r.1, p.length :: r.2)
    else (s, [])

/-- Sample rows and states used by concrete witnesses below. -/
def rowTask : Row := { id := "1", objectApiName := "Task", title := "call" }

def rowCase : Row := { id := "2", objectApiName := "Case", title := "ticket" }

/-- A reachable viewer state: the server reports two available object types,
then the first page contains only `Task` rows. -/
def c6state : TState :=
  run initState
    [TOp.wireObjectTypes [("Task", "Task"), ("Case", "Case")],
     TOp.wireTimeline (Except.ok [rowTask])]

/-- A viewer state mid-pagination: 50 of 200 records loaded. -/
def midState : TState :=
  { initState with
      hasMoreRecords := true
      totalRecordCount := 200
      currentOffset := 50
      isLoading := false }

end Timeline

/-! ## Civil-date model for `new Date()` arithmetic

The report's date presets manipulate a JS `Date`.  We model a date at civil
(calendar-day) granularity on a DST-free clock: `new Date(t - k*86400000)`
moves the civil date back exactly `k` days, which is `prevDay` iterated `k`
times; `toDayNum` is an independent day-count (proleptic Gregorian) used to
state "exactly k days earlier". -/

namespace JsDate

/-- A civil date (year ≥ 1, month 1-12, day 1-31). -/
structure Date where
  y : Nat
  m : Nat
  d : Nat
deriving DecidableEq

/-- Gregorian leap year test. -/
def isLeap (y : Nat) : Bool := (y % 4 == 0 && y % 100 != 0) || y % 400 == 0

/-- Length of month `m` (1-12) given the leap flag. -/
def monthLen (leap : Bool) : Nat → Nat
  | 1 => 31
  | 2 => if leap then 29 else 28
  | 3 => 31
  | 4 => 30
  | 5 => 31
  | 6 => 30
  | 7 => 31
  | 8 => 31
  | 9 => 30
  | 10 => 31
  | 11 => 30
  | 12 => 31
  | _ => 0

/-- A date is a real calendar date. -/
def Valid (x : Date) : Prop :=
  1 ≤ x.y ∧ 1 ≤ x.m ∧ x.m ≤ 12 ∧ 1 ≤ x.d ∧ x.d ≤ monthLen (isLeap x.y) x.m

instance (x : Date) : Decidable (Valid x) := by unfold Valid; infer_instance

/-- The previous civil day. -/
def prevDay (x : Date) : Date :=
  if 2 ≤ x.d then ⟨x.y, x.m, x.d - 1⟩
  else if 2 ≤ x.m then ⟨x.y, x.m - 1, monthLen (isLeap x.y) (x.m - 1)⟩
  else ⟨x.y - 1, 12, 31⟩

/-- Model of `_daysAgo(from, days)`, i.e.
`new Date(from.getTime() - days*86400000)`: on a DST-free clock this steps
the civil date back one day per 86400000 ms. -/
def daysAgo (x : Date) (days : Nat) : Date := prevDay^[days] x

/-- Days in the months strictly before month `m`. -/
def cumMonth (leap : Bool) (m : Nat) : Nat :=
  ((List.range (m - 1)).map fun i => monthLen leap (i + 1)).sum

/-- Leap days in years strictly before `y`. -/
def leapsBefore (y : Nat) : Nat := (y - 1) / 4 - (y - 1) / 100 + (y - 1) / 400

/-- Day count of a civil date (0 for January 1 of year 1). -/
def toDayNum (x : Date) : Nat :=
  365 * (x.y - 1) + leapsBefore x.y + cumMonth (isLeap x.y) x.m + (x.d - 1)

/-- `String(n).padStart(2, '0')` for the month/day components (≤ 99). -/
def pad2 (n : Nat) : String := if n < 10 then "0" ++ toString n else toString n

/-- `_formatDate(date)`: `YYYY-MM-DD`. -/
def formatDate (x : Date) : String :=
  toString x.y ++ "-" ++ pad2 x.m ++ "-" ++ pad2 x.d

/-- Model of `d.setFullYear(d.getFullYear() - 1)` on a valid date.  JS
`MakeDay` keeps month and day-of-month and normalises overflow, so Feb 29
of a leap year becomes Mar 1 of the (non-leap) previous year. -/
def setYearSub1 (x : Date) : Date :=
  if x.d ≤ monthLen (isLeap (x.y - 1)) x.m then ⟨x.y - 1, x.m, x.d⟩
  else ⟨x.y - 1, x.m + 1, x.d - monthLen (isLeap (x.y - 1)) x.m⟩

end JsDate

/-! ## History report tab (`historyReportTab.js`) -/

namespace Report

/-- A flattened field-history row of the report (every field may be null). -/
structure RRow where
  objectLabel : Option String
  recordUrl : Option String
  recordName : Option String
  fieldChanged : Option String
  oldValue : Option String
  newValue : Option String
  changedBy : Option String
  changedDate : Option String
deriving DecidableEq

/-- Dynamic field access `row[fieldName]` (unknown names are `undefined`). -/
def getField (r : RRow) : String → Option String
  | "objectLabel" => r.objectLabel
  | "recordUrl" => r.recordUrl
  | "recordName" => r.recordName
  | "fieldChanged" => r.fieldChanged
  | "oldValue" => r.oldValue
  | "newValue" => r.newValue
  | "changedBy" => r.changedBy
  | "changedDate" => r.changedDate
  | _ => none

/-- The result shape of `getHistoryReport`. -/
structure Page where
  records : List RRow
  hasMore : Bool
deriving DecidableEq

/-- `PAGE_SIZE`. -/
def pageSize : Nat := 50

/-- The mutable fields of the `HistoryReportTab` component. -/
structure RState where
  selectedObjects : List String
  startDate : String
  endDate : String
  fieldFilter : String
  changedByFilter : String
  activePreset : String
  isFilterPanelOpen : Bool
  allLoadedData : List RRow
  tableData : List RRow
  totalCount : Option Nat
  hasMore : Bool
  hasSearched : Bool
  isPageLoading : Bool
  isTableLoading : Bool
  errorMessage : String
  sortedBy : String
  sortedDirection : String
  currentOffset : Nat
deriving DecidableEq

/-- The component's initial field values. -/
def initState : RState :=
  { selectedObjects := [], startDate := "", endDate := "", fieldFilter := ""
    changedByFilter := "", activePreset := "", isFilterPanelOpen := true
    allLoadedData := [], tableData := [], totalCount := none, hasMore := false
    hasSearched := false, isPageLoading := false, isTableLoading := false
    errorMessage := "", sortedBy := "changedDate", sortedDirection := "desc"
    currentOffset := 0 }

/-- `r.fieldChanged?.toLowerCase().includes(q)` with `q` already lowercased
(a null field is excluded). -/
def rowPassesField (q : String) (r : RRow) : Bool :=
  match r.fieldChanged with
  | some v => jsIncludes (jsToLower v) q
  | none => false

/-- `r.changedBy?.toLowerCase().includes(q)` with `q` already lowercased. -/
def rowPassesChangedBy (q : String) (r : RRow) : Bool :=
  match r.changedBy with
  | some v => jsIncludes (jsToLower v) q
  | none => false

/-- The field-changed stage of `_applyClientFilters` (skipped when the filter
string is empty, JS falsy). -/
def applyFieldFilter (q : String) (rows : List RRow) : List RRow :=
  if q ≠ "" then rows.filter (rowPassesField (jsToLower q)) else rows

/-- The changed-by stage of `_applyClientFilters`. -/
def applyChangedByFilter (q : String) (rows : List RRow) : List RRow :=
  if q ≠ "" then rows.filter (rowPassesChangedBy (jsToLower q)) else rows

/-- Spec-side row predicate: a possibly-null text contains the filter string
as a case-insensitive substring; an empty filter string matches every row
(including rows whose text is null), matching the JS falsy skip. -/
def SpecMatch (q : String) (v : Option String) : Prop :=
  q = "" ∨ ∃ x, v = some x ∧ ContainsCI x q

/-- The rows of `allLoadedData` surviving both client filters, in order. -/
def clientFiltered (s : RState) : List RRow :=
  applyChangedByFilter s.changedByFilter (applyFieldFilter s.fieldFilter s.allLoadedData)

/-- `_applyClientFilters`: recompute `tableData` from `allLoadedData` and the
two client filter strings. -/
def applyClientFilters (s : RState) : RState :=
  { s with tableData := clientFiltered s }

/-- `handleApplyFilters`: the state is reset, then the paged-rows call and the
count call are issued together (`Promise.all`), whose joint outcome is the
`resp` argument; on success the three data fields are assigned from the
results, on failure they keep the reset values and an error message is set. -/
def handleApplyFilters (s : RState) (resp : Except JsErr (Page × Nat)) : RState :=
  match resp with
  | .ok pc =>
    applyClientFilters
      { s with
          allLoadedData := pc.1.records
          tableData := []
          currentOffset := 0
          hasMore := pc.1.hasMore
          totalCount := some pc.2
          hasSearched := true
          errorMessage := ""
          isPageLoading := false }
  | .error e =>
    { s with
        allLoadedData := []
        tableData := []
        currentOffset := 0
        hasMore := false
        totalCount := none
        hasSearched := false
        errorMessage := extractMessage e
        isPageLoading := false }

/-- `handleLoadMore`: the guard returns without fetching; otherwise the offset
is advanced by `PAGE_SIZE` *before* the fetch, whose outcome is `resp`.  The
second component is the offset requested from the server (`none` if no fetch
was issued).  On failure only a toast is shown: the offset stays advanced. -/
def handleLoadMore (s : RState) (resp : Except JsErr Page) : RState × Option Nat :=
  if !s.hasMore || s.isTableLoading then (s, none)
  else
    match resp with
    | .ok result =>
      (applyClientFilters
        { s with
            currentOffset := s.currentOffset + pageSize
            allLoadedData := s.allLoadedData ++ result.records
            hasMore := result.hasMore
            isTableLoading := false }, some (s.currentOffset + pageSize))
    | .error _ =>
      ({ s with
          currentOffset := s.currentOffset + pageSize
          isTableLoading := false }, some (s.currentOffset + pageSize))

/-- The sort key of a row for column `field`: `(row[field] ?? '')` lowercased
(all report columns are strings; a null or missing value is the empty
string). -/
def sortVal (field : String) (r : RRow) : String :=
  jsToLower ((getField r field).getD "")

/-- The total preorder realised by the JS comparator
`multiplier * cmp(valA, valB)` with `multiplier = (dir === 'asc') ? 1 : -1`. -/
def sortRel (field dir : String) (a b : RRow) : Prop :=
  if dir = "asc" then sortVal field a ≤ sortVal field b
  else sortVal field b ≤ sortVal field a

instance (field dir : String) : DecidableRel (sortRel field dir) := by
  unfold sortRel
  intro a b
  by_cases h : dir = "asc" <;> simp [h] <;> infer_instance

instance (field dir : String) : IsTotal RRow (sortRel field dir) := by
  constructor
  intro a b
  unfold sortRel
  by_cases h : dir = "asc" <;> simp [h] <;> exact le_total _ _

instance (field dir : String) : IsTrans RRow (sortRel field dir) := by
  constructor
  intro a b c
  unfold sortRel
  by_cases h : dir = "asc" <;> simp [h]
  · exact fun h1 h2 => le_trans h1 h2
  · exact fun h1 h2 => le_trans h2 h1

/-- `handleSort`: `Array.prototype.sort` is stable, and with the consistent
comparator above its result is the unique stable sort, realised here by
insertion sort with the corresponding total preorder. -/
def handleSort (s : RState) (field dir : String) : RState :=
  { s with
      sortedBy := field
      sortedDirection := dir
      tableData := List.insertionSort (sortRel field dir) s.tableData }

/-- `handleDatePreset`: `today` is the current date; the preset writes the
formatted end date (always today) and start date. -/
def handleDatePreset (s : RState) (preset : String) (today : JsDate.Date) : RState :=
  let s1 := { s with activePreset := preset, endDate := JsDate.formatDate today }
  match preset with
  | "last7" => { s1 with startDate := JsDate.formatDate (JsDate.daysAgo today 6) }
  | "last30" => { s1 with startDate := JsDate.formatDate (JsDate.daysAgo today 29) }
  | "last90" => { s1 with startDate := JsDate.formatDate (JsDate.daysAgo today 89) }
  | "lastYear" => { s1 with startDate := JsDate.formatDate (JsDate.setYearSub1 today) }
  | "ytd" => { s1 with startDate := toString today.y ++ "-01-01" }
  | _ => s1

/-- Repeated load-more with successful pages: each entry of `pages` answers
the next fetch; fetching stops once the guard fails.  Returns the final state
and the number of pages actually fetched. -/
def repRun (s : RState) : List Page → RState × Nat
  | [] => (s, 0)
  | p :: ps =>
    if s.hasMore && !s.isTableLoading then
      let r := repRun ((handleLoadMore s (Except.ok p)).1) ps
      (r.1, r.2 + 1)
    else (s, 0)

/-- Sample rows and states used by concrete witnesses below. -/
def rowStatus : RRow :=
  { objectLabel := some "Task", recordUrl := some "/1", recordName := some "T-1"
    fieldChanged := some "Status", oldValue := some "New", newValue := some "Done"
    changedBy := some "Alice", changedDate := some "2026-01-02" }

def rowOwner : RRow :=
  { objectLabel := some "Case", recordUrl := some "/2", recordName := some "C-7"
    fieldChanged := some "Owner", oldValue := none, newValue := some "Bob"
    changedBy := some "Bob", changedDate := some "2026-01-03" }

def rowNullField : RRow :=
  { objectLabel := some "Case", recordUrl := none, recordName := none
    fieldChanged := none, oldValue := none, newValue := none
    changedBy := none, changedDate := none }

def rowEmptyField : RRow :=
  { objectLabel := some "Case", recordUrl := none, recordName := none
    fieldChanged := some "", oldValue := none, newValue := none
    changedBy := none, changedDate := none }

/-- A report state mid-pagination (one page loaded, more available). -/
def midState : RState :=
  { initState with
      allLoadedData := [rowStatus]
      tableData := [rowStatus]
      hasMore := true
      hasSearched := true
      totalCount := some 120 }

end Report

/-! ## Timeline configuration modal -/

namespace Config

/-- One entry of the server-supplied available child objects, carrying the
precomputed relationship field (possibly absent). -/
structure AvailObj where
  label : String
  value : String
  relationshipField : Option String
deriving DecidableEq

/-- The mutable fields of the configuration modal that object selection and
save-gating read or write. -/
structure CState where
  objectApiName : String
  selectedObject : String
  selectedRelationshipField : String
  childObjectLabel : String
  relationshipError : String
  isSaving : Bool
  availableObjects : List AvailObj
deriving DecidableEq

/-- JS falsiness of a possibly-missing string (`null`, `undefined`, `""`). -/
def falsyStr (o : Option String) : Bool := o.getD "" = ""

/-- `hasRelationshipError` getter. -/
def hasRelationshipError (s : CState) : Bool := s.relationshipError ≠ ""

/-- `isSaveDisabled` getter:
`!selectedObject || !selectedRelationshipField || isSaving || hasRelationshipError`. -/
def isSaveDisabled (s : CState) : Bool :=
  s.selectedObject = "" || s.selectedRelationshipField = "" || s.isSaving
    || hasRelationshipError s

/-- `handleObjectChange` up to the `await saveConfiguration()` point: returns
the updated state and whether a save call was issued.  The handler first sets
`selectedObject` and clears `relationshipError`; the two failure branches then
set an inline error and clear the relationship field and label without
calling save.  No branch throws. -/
def handleObjectChange (s : CState) (v : String) : CState × Bool :=
  match s.availableObjects.find? (fun o => o.value = v) with
  | some obj =>
    if falsyStr obj.relationshipField then
      ({ s with
          selectedObject := v
          relationshipError := "No relationship found between " ++ s.objectApiName
            ++ " and " ++ v ++ ". This object cannot be added to the timeline."
          selectedRelationshipField := ""
          childObjectLabel := "" }, false)
    else
      ({ s with
          selectedObject := v
          relationshipError := ""
          selectedRelationshipField := obj.relationshipField.getD ""
          childObjectLabel := obj.label }, true)
  | none =>
    ({ s with
        selectedObject := v
        relationshipError := "Selected object not found in available relationships."
        selectedRelationshipField := ""
        childObjectLabel := "" }, false)

/-- A modal state whose available objects include a child with no detected
relationship field. -/
def sampleState : CState :=
  { objectApiName := "Account", selectedObject := ""
    selectedRelationshipField := "", childObjectLabel := ""
    relationshipError := "", isSaving := false
    availableObjects :=
      [{ label := "Task", value := "Task", relationshipField := some "WhatId" },
       { label := "Gadget", value := "Gadget__c", relationshipField := none }] }

end Config

/-! # Theorems

Everything above this line is a definition; everything below ranges over the
definitions and proves the claims. -/


theorem chStarts_iff (q s : List Char) : chStarts q s = true ↔ ∃ t, s = q ++ t := by
  induction q generalizing s with
  | nil => simp [chStarts]
  | cons a as ih =>
    cases s with
    | nil => simp [chStarts]
    | cons b bs =>
      simp only [chStarts, Bool.and_eq_true, beq_iff_eq, ih, List.cons_append,
        List.cons.injEq]
      constructor
      · rintro ⟨rfl, t, rfl⟩; exact ⟨t, rfl, rfl⟩
      · rintro ⟨t, rfl, rfl⟩; exact ⟨rfl, t, rfl⟩

theorem chHasSub_iff (q s : List Char) :
    chHasSub q s = true ↔ ∃ p t, s = p ++ q ++ t := by
  induction s with
  | nil =>
    simp only [chHasSub, List.isEmpty_iff]
    constructor
    · rintro rfl; exact ⟨[], [], rfl⟩
    · rintro ⟨p, t, h⟩
      rcases List.append_eq_nil.mp h.symm with ⟨h1, h2⟩
      exact (List.append_eq_nil.mp h1).2
  | cons c t ih =>
    simp only [chHasSub, Bool.or_eq_true, chStarts_iff, ih]
    constructor
    · rintro (⟨u, hu⟩ | ⟨p, u, hu⟩)
      · exact ⟨[], u, by simpa using hu⟩
      · exact ⟨c :: p, u, by simp [hu]⟩
    · rintro ⟨p, u, hu⟩
      cases p with
      | nil => exact Or.inl ⟨u, by simpa using hu⟩
      | cons x xs =>
        simp only [List.cons_append, List.cons.injEq] at hu
        exact Or.inr ⟨xs, u, by simp [hu.2]⟩

theorem jsIncludes_lower_iff (hay needle : String) :
    jsIncludes (jsToLower hay) (jsToLower needle) = true ↔ ContainsCI hay needle := by
  unfold jsIncludes ContainsCI
  exact chHasSub_iff _ _

theorem extractMessage_ne_empty (e : JsErr) : extractMessage e ≠ "" := by
  unfold extractMessage jsOrElse
  rcases e with ⟨b, m⟩
  cases b with
  | none =>
    cases m with
    | none => simp
    | some s => by_cases hs : s = "" <;> simp [hs]
  | some s =>
    by_cases hs : s = ""
    · cases m with
      | none => simp [hs]
      | some u => by_cases hu : u = "" <;> simp [hs, hu]
    · simp [hs]

namespace Timeline

theorem jsFindIndex_spec [Inhabited α] (p : α → Bool) (l : List α) (i : Nat)
    (h : jsFindIndex p l = some i) :
    l.getD i default ∈ l ∧ p (l.getD i default) = true := by
  induction l generalizing i with
  | nil => simp [jsFindIndex] at h
  | cons x xs ih =>
    by_cases hx : p x
    · simp [jsFindIndex, hx] at h
      subst h
      simp [List.getD, hx]
    · simp [jsFindIndex, hx] at h
      rcases h with ⟨j, hj, rfl⟩
      have := ih j hj
      rw [List.getD_cons_succ]
      exact ⟨List.mem_cons_of_mem _ this.1, this.2⟩

@[simp] theorem applyFilters_selectedFilters (s : TState) :
    (applyFilters s).selectedFilters = s.selectedFilters := by
  unfold applyFilters; split <;> rfl

@[simp] theorem applyFilters_objectTypes (s : TState) :
    (applyFilters s).objectTypes = s.objectTypes := by
  unfold applyFilters; split <;> rfl

@[simp] theorem applyFilters_timelineRecords (s : TState) :
    (applyFilters s).timelineRecords = s.timelineRecords := by
  unfold applyFilters; split <;> rfl

@[simp] theorem applyFilters_currentOffset (s : TState) :
    (applyFilters s).currentOffset = s.currentOffset := by
  unfold applyFilters; split <;> rfl

@[simp] theorem applyFilters_hasMoreRecords (s : TState) :
    (applyFilters s).hasMoreRecords = s.hasMoreRecords := by
  unfold applyFilters; split <;> rfl

@[simp] theorem applyFilters_totalRecordCount (s : TState) :
    (applyFilters s).totalRecordCount = s.totalRecordCount := by
  unfold applyFilters; split <;> rfl

/-- Setting a list entry to an element with the same `value` leaves the
value projection of the list unchanged. -/
theorem map_value_set (l : List OType) (i : Nat) (a : OType)
    (h : a.value = (l.getD i default).value) :
    (l.set i a).map OType.value = l.map OType.value := by
  induction l generalizing i with
  | nil => simp
  | cons x xs ih =>
    cases i with
    | zero =>
      simp only [List.getD_cons_zero] at h
      simp [h]
    | succ j =>
      simp only [List.getD_cons_succ] at h
      simp [ih j h]

theorem handleFilterClick_preserves (s : TState) (v : String)
    (h : FiltersAvailable s) : FiltersAvailable (handleFilterClick s v) := by
  unfold handleFilterClick
  cases hf : jsFindIndex (fun t => t.value = v) s.objectTypes with
  | none => exact h
  | some index =>
    obtain ⟨hmem, hval⟩ := jsFindIndex_spec _ _ _ hf
    have hvv : (s.objectTypes.getD index default).value = v := of_decide_eq_true hval
    dsimp only
    cases hsel : (s.objectTypes.getD index default).selected with
    | false =>
      rw [if_neg Bool.false_ne_true]
      intro w hw
      simp only [applyFilters_selectedFilters, applyFilters_objectTypes] at hw ⊢
      have hmapeq : (s.objectTypes.set index
          { s.objectTypes.getD index default with
              selected := true, variant := "brand" }).map OType.value
          = s.objectTypes.map OType.value := map_value_set _ _ _ rfl
      rw [hmapeq]
      rcases List.mem_append.mp hw with hw | hw
      · exact h _ hw
      · have : w = v := by simpa using hw
        subst this
        exact List.mem_map.mpr ⟨_, hmem, hvv⟩
    | true =>
      rw [if_pos rfl]
      intro w hw
      simp only [applyFilters_selectedFilters, applyFilters_objectTypes] at hw ⊢
      have hmapeq : (s.objectTypes.set index
          { s.objectTypes.getD index default with
              selected := false, variant := "neutral" }).map OType.value
          = s.objectTypes.map OType.value := map_value_set _ _ _ rfl
      rw [hmapeq]
      exact h _ (List.mem_of_mem_filter hw)

/-- Claim C6 invariant, corrected form: the filter-selection machinery keeps
`selectedFilters` inside the server-supplied available-type values, from the
initial state and across every operation. -/
theorem step_preserves_FiltersAvailable (s : TState) (op : TOp)
    (h : FiltersAvailable s) : FiltersAvailable (step s op) := by
  cases op with
  | wireObjectTypes d =>
    intro w hw
    simp only [step, wiredObjectTypes, List.map_map] at hw ⊢
    simpa using (by simpa using hw : w ∈ d.map fun t => t.2)
  | wireCount n => exact h
  | wireTimeline r =>
    cases r with
    | ok data =>
      intro w hw
      simp only [step, wiredTimeline, applyFilters_selectedFilters,
        applyFilters_objectTypes] at hw ⊢
      exact h _ hw
    | error e => exact h
  | filterClick v => exact handleFilterClick_preserves s v h
  | selectAll =>
    intro w hw
    simp only [step, handleSelectAll, applyFilters_selectedFilters,
      applyFilters_objectTypes] at hw ⊢
    exact hw
  | clearAll =>
    intro w hw
    simp only [step, handleClearAll, applyFilters_selectedFilters] at hw
    simp at hw
  | loadMore r =>
    cases r with
    | ok rows =>
      show FiltersAvailable (handleLoadMore s (Except.ok rows)).1
      unfold handleLoadMore
      cases hm : s.hasMoreRecords with
      | false => simpa using h
      | true =>
        simp only [Bool.not_true]
        rw [if_neg Bool.false_ne_true]
        by_cases hp : 0 < rows.length
        · rw [if_pos hp]
          intro w hw
          simp only [applyFilters_selectedFilters, applyFilters_objectTypes] at hw ⊢
          exact h _ hw
        · rw [if_neg hp]
          exact h
    | error e =>
      show FiltersAvailable (handleLoadMore s (Except.error e)).1
      unfold handleLoadMore
      cases hm : s.hasMoreRecords with
      | false => simpa using h
      | true =>
        simp only [Bool.not_true]
        rw [if_neg Bool.false_ne_true]
        exact h

theorem loadMoreOk_offset (s : TState) (p : List Row)
    (h : s.hasMoreRecords = true) :
    ((handleLoadMore s (Except.ok p)).1).currentOffset
      = s.currentOffset + p.length := by
  unfold handleLoadMore
  rw [h]
  simp only [Bool.not_true]
  rw [if_neg Bool.false_ne_true]
  by_cases hp : 0 < p.length
  · rw [if_pos hp]
    simp
  · rw [if_neg hp]
    have hz : p.length = 0 := by omega
    simp [hz]

theorem loadMoreOk_hasMore_iff (s : TState) (p : List Row)
    (h : s.hasMoreRecords = true) :
    (((handleLoadMore s (Except.ok p)).1).hasMoreRecords = false ↔
      (p = [] ∨ s.totalRecordCount ≤ s.currentOffset + p.length)) := by
  unfold handleLoadMore
  rw [h]
  simp only [Bool.not_true]
  rw [if_neg Bool.false_ne_true]
  by_cases hp : 0 < p.length
  · have hpne : p ≠ [] := by
      intro hnil; rw [hnil] at hp; simp at hp
    rw [if_pos hp]
    simp [hpne]
  · have hpnil : p = [] := List.length_eq_zero.mp (by omega)
    rw [if_neg hp]
    simp [hpnil]

theorem tlRun_offset (ps : List (List Row)) (s : TState) :
    ((tlRun s ps).1).currentOffset = s.currentOffset + ((tlRun s ps).2).sum := by
  induction ps generalizing s with
  | nil => simp [tlRun]
  | cons p ps ih =>
    unfold tlRun
    by_cases h : s.hasMoreRecords
    · simp only [h, if_true, List.sum_cons]
      rw [ih]
      rw [loadMoreOk_offset s p h]
      omega
    · simp [h]

end Timeline

namespace Report

@[simp] theorem applyClientFilters_allLoadedData (s : RState) :
    (applyClientFilters s).allLoadedData = s.allLoadedData := rfl

@[simp] theorem applyClientFilters_currentOffset (s : RState) :
    (applyClientFilters s).currentOffset = s.currentOffset := rfl

@[simp] theorem applyClientFilters_hasMore (s : RState) :
    (applyClientFilters s).hasMore = s.hasMore := rfl

@[simp] theorem applyClientFilters_totalCount (s : RState) :
    (applyClientFilters s).totalCount = s.totalCount := rfl

@[simp] theorem applyClientFilters_errorMessage (s : RState) :
    (applyClientFilters s).errorMessage = s.errorMessage := rfl

@[simp] theorem applyClientFilters_hasSearched (s : RState) :
    (applyClientFilters s).hasSearched = s.hasSearched := rfl

@[simp] theorem applyClientFilters_isTableLoading (s : RState) :
    (applyClientFilters s).isTableLoading = s.isTableLoading := rfl

@[simp] theorem applyClientFilters_tableData (s : RState) :
    (applyClientFilters s).tableData = clientFiltered s := rfl

theorem loadMoreOk_fields (s : RState) (page : Page)
    (h1 : s.hasMore = true) (h2 : s.isTableLoading = false) :
    (handleLoadMore s (Except.ok page)).1.currentOffset = s.currentOffset + pageSize
    ∧ (handleLoadMore s (Except.ok page)).1.hasMore = page.hasMore
    ∧ (handleLoadMore s (Except.ok page)).1.allLoadedData
        = s.allLoadedData ++ page.records
    ∧ (handleLoadMore s (Except.ok page)).1.isTableLoading = false
    ∧ (handleLoadMore s (Except.ok page)).2 = some (s.currentOffset + pageSize) := by
  unfold handleLoadMore
  rw [h1, h2]
  simp

theorem loadMoreErr_fields (s : RState) (e : JsErr)
    (h1 : s.hasMore = true) (h2 : s.isTableLoading = false) :
    (handleLoadMore s (Except.error e)).1.currentOffset = s.currentOffset + pageSize
    ∧ (handleLoadMore s (Except.error e)).1.allLoadedData = s.allLoadedData
    ∧ (handleLoadMore s (Except.error e)).1.tableData = s.tableData
    ∧ (handleLoadMore s (Except.error e)).1.hasMore = s.hasMore
    ∧ (handleLoadMore s (Except.error e)).1.isTableLoading = false
    ∧ (handleLoadMore s (Except.error e)).2 = some (s.currentOffset + pageSize) := by
  unfold handleLoadMore
  rw [h1, h2]
  simp

theorem rowPassesField_iff (q : String) (r : RRow) :
    rowPassesField (jsToLower q) r = true ↔
      ∃ x, r.fieldChanged = some x ∧ ContainsCI x q := by
  cases hr : r.fieldChanged with
  | none => simp [rowPassesField, hr]
  | some v =>
    unfold rowPassesField
    rw [hr]
    rw [jsIncludes_lower_iff]
    constructor
    · intro h; exact ⟨v, rfl, h⟩
    · rintro ⟨x, hx, h⟩
      cases hx
      exact h

theorem rowPassesChangedBy_iff (q : String) (r : RRow) :
    rowPassesChangedBy (jsToLower q) r = true ↔
      ∃ x, r.changedBy = some x ∧ ContainsCI x q := by
  cases hr : r.changedBy with
  | none => simp [rowPassesChangedBy, hr]
  | some v =>
    unfold rowPassesChangedBy
    rw [hr]
    rw [jsIncludes_lower_iff]
    constructor
    · intro h; exact ⟨v, rfl, h⟩
    · rintro ⟨x, hx, h⟩
      cases hx
      exact h

theorem mem_applyFieldFilter (q : String) (rows : List RRow) (r : RRow) :
    r ∈ applyFieldFilter q rows ↔ r ∈ rows ∧ SpecMatch q r.fieldChanged := by
  unfold applyFieldFilter SpecMatch
  by_cases hq : q = ""
  · simp [hq]
  · rw [if_pos hq]
    simp [hq, List.mem_filter, rowPassesField_iff]

theorem mem_applyChangedByFilter (q : String) (rows : List RRow) (r : RRow) :
    r ∈ applyChangedByFilter q rows ↔ r ∈ rows ∧ SpecMatch q r.changedBy := by
  unfold applyChangedByFilter SpecMatch
  by_cases hq : q = ""
  · simp [hq]
  · rw [if_pos hq]
    simp [hq, List.mem_filter, rowPassesChangedBy_iff]

theorem applyFieldFilter_sublist (q : String) (rows : List RRow) :
    List.Sublist (applyFieldFilter q rows) rows := by
  unfold applyFieldFilter
  split
  · exact List.filter_sublist _
  · exact List.Sublist.refl _

theorem applyChangedByFilter_sublist (q : String) (rows : List RRow) :
    List.Sublist (applyChangedByFilter q rows) rows := by
  unfold applyChangedByFilter
  split
  · exact List.filter_sublist _
  · exact List.Sublist.refl _

theorem repRun_offset (ps : List Page) (s : RState) :
    ((repRun s ps).1).currentOffset = s.currentOffset + pageSize * (repRun s ps).2 := by
  induction ps generalizing s with
  | nil => simp [repRun]
  | cons p ps ih =>
    unfold repRun
    by_cases h : (s.hasMore && !s.isTableLoading) = true
    · rw [if_pos h]
      obtain ⟨h1, h2⟩ : s.hasMore = true ∧ (!s.isTableLoading) = true := by
        simpa using h
      have h2' : s.isTableLoading = false := by
        cases hcl : s.isTableLoading with
        | false => rfl
        | true => rw [hcl] at h2; exact absurd h2 (by decide)
      dsimp only
      rw [ih]
      rw [(loadMoreOk_fields s p h1 h2').1]
      ring
    · rw [if_neg h]
      simp

theorem sortRel_of_eqVal (field dir : String) {a b : RRow}
    (h : sortVal field a = sortVal field b) : sortRel field dir a b := by
  unfold sortRel
  by_cases hd : dir = "asc" <;> simp [hd, h]

end Report

namespace JsDate

theorem monthLen_pos (leap : Bool) (m : Nat) (h1 : 1 ≤ m) (h2 : m ≤ 12) :
    1 ≤ monthLen leap m := by
  interval_cases m <;> cases leap <;> decide

theorem cumMonth_succ (leap : Bool) (m : Nat) (h : 1 ≤ m) :
    cumMonth leap (m + 1) = cumMonth leap m + monthLen leap m := by
  unfold cumMonth
  have e1 : m + 1 - 1 = (m - 1) + 1 := by omega
  rw [e1, List.range_succ, List.map_append, List.sum_append]
  have e2 : m - 1 + 1 = m := by omega
  simp [e2]

theorem leapsBefore_succ (n : Nat) (h : 1 ≤ n) :
    leapsBefore (n + 1) = leapsBefore n + (if isLeap n then 1 else 0) := by
  unfold leapsBefore
  simp only [Nat.add_sub_cancel]
  have hn : n - 1 + 1 = n := by omega
  have h4 := Nat.succ_div (n - 1) 4
  rw [hn] at h4
  have h100 := Nat.succ_div (n - 1) 100
  rw [hn] at h100
  have h400 := Nat.succ_div (n - 1) 400
  rw [hn] at h400
  have hle : (n - 1) / 100 ≤ (n - 1) / 4 :=
    Nat.div_le_div_left (by norm_num) (by norm_num)
  by_cases d400 : 400 ∣ n
  · have d100 : 100 ∣ n := dvd_trans (by norm_num) d400
    have d4 : 4 ∣ n := dvd_trans (by norm_num) d400
    have hm400 : n % 400 = 0 := Nat.dvd_iff_mod_eq_zero.mp d400
    have hleap : isLeap n = true := by
      unfold isLeap
      simp [hm400]
    rw [hleap, h4, h100, h400, if_pos rfl, if_pos d4, if_pos d100, if_pos d400]
    omega
  · by_cases d100 : 100 ∣ n
    · have d4 : 4 ∣ n := dvd_trans (by norm_num) d100
      have hm100 : n % 100 = 0 := Nat.dvd_iff_mod_eq_zero.mp d100
      have hm400 : n % 400 ≠ 0 := fun hz =>
        d400 (Nat.dvd_iff_mod_eq_zero.mpr hz)
      have hleap : isLeap n = false := by
        unfold isLeap
        simp [hm100, hm400]
      rw [hleap, h4, h100, h400, if_neg Bool.false_ne_true, if_pos d4,
        if_pos d100, if_neg d400]
      omega
    · by_cases d4 : 4 ∣ n
      · have hm4 : n % 4 = 0 := Nat.dvd_iff_mod_eq_zero.mp d4
        have hm100 : n % 100 ≠ 0 := fun hz =>
          d100 (Nat.dvd_iff_mod_eq_zero.mpr hz)
        have hleap : isLeap n = true := by
          unfold isLeap
          simp [hm4, hm100]
        rw [hleap, h4, h100, h400, if_pos rfl, if_pos d4, if_neg d100,
          if_neg d400]
        omega
      · have hm4 : n % 4 ≠ 0 := fun hz =>
          d4 (Nat.dvd_iff_mod_eq_zero.mpr hz)
        have hm400 : n % 400 ≠ 0 := fun hz =>
          d400 (Nat.dvd_iff_mod_eq_zero.mpr hz)
        have hleap : isLeap n = false := by
          unfold isLeap
          simp [hm4, hm400]
        rw [hleap, h4, h100, h400, if_neg Bool.false_ne_true, if_neg d4,
          if_neg d100, if_neg d400]
        omega

theorem toDayNum_prevDay (x : Date) (hv : Valid x) (hne : x ≠ ⟨1, 1, 1⟩) :
    Valid (prevDay x) ∧ toDayNum (prevDay x) + 1 = toDayNum x := by
  obtain ⟨hy, hm1, hm2, hd1, hd2⟩ := hv
  unfold prevDay
  by_cases hd : 2 ≤ x.d
  · rw [if_pos hd]
    constructor
    · exact ⟨hy, hm1, hm2, show 1 ≤ x.d - 1 by omega,
        show x.d - 1 ≤ monthLen (isLeap x.y) x.m by omega⟩
    · show 365 * (x.y - 1) + leapsBefore x.y + cumMonth (isLeap x.y) x.m
          + (x.d - 1 - 1) + 1
        = 365 * (x.y - 1) + leapsBefore x.y + cumMonth (isLeap x.y) x.m
          + (x.d - 1)
      omega
  · rw [if_neg hd]
    by_cases hm : 2 ≤ x.m
    · rw [if_pos hm]
      have hML : 1 ≤ monthLen (isLeap x.y) (x.m - 1) :=
        monthLen_pos _ _ (by omega) (by omega)
      constructor
      · exact ⟨hy, show 1 ≤ x.m - 1 by omega, show x.m - 1 ≤ 12 by omega,
          hML, le_refl _⟩
      · show 365 * (x.y - 1) + leapsBefore x.y + cumMonth (isLeap x.y) (x.m - 1)
            + (monthLen (isLeap x.y) (x.m - 1) - 1) + 1
          = 365 * (x.y - 1) + leapsBefore x.y + cumMonth (isLeap x.y) x.m
            + (x.d - 1)
        have hcs := cumMonth_succ (isLeap x.y) (x.m - 1) (by omega)
        have hmm : (x.m - 1) + 1 = x.m := by omega
        rw [hmm] at hcs
        omega
    · rw [if_neg hm]
      have hm1' : x.m = 1 := by omega
      have hd1' : x.d = 1 := by omega
      have hy2 : 2 ≤ x.y := by
        by_contra hc
        apply hne
        have hy1 : x.y = 1 := by omega
        cases x
        simp_all
      have h12 : monthLen (isLeap (x.y - 1)) 12 = 31 := by
        cases isLeap (x.y - 1) <;> rfl
      constructor
      · exact ⟨show 1 ≤ x.y - 1 by omega, by norm_num, by norm_num,
          by norm_num, show (31 : Nat) ≤ monthLen (isLeap (x.y - 1)) 12 by
            rw [h12]⟩
      · show 365 * (x.y - 1 - 1) + leapsBefore (x.y - 1)
            + cumMonth (isLeap (x.y - 1)) 12 + (31 - 1) + 1
          = 365 * (x.y - 1) + leapsBefore x.y + cumMonth (isLeap x.y) x.m
            + (x.d - 1)
        rw [hm1', hd1']
        have hc1 : cumMonth (isLeap x.y) 1 = 0 := by
          cases isLeap x.y <;> rfl
        rw [hc1]
        have hLs := leapsBefore_succ (x.y - 1) (by omega)
        have hyy : (x.y - 1) + 1 = x.y := by omega
        rw [hyy] at hLs
        have hc12 : cumMonth (isLeap (x.y - 1)) 12
            = 334 + (if isLeap (x.y - 1) then 1 else 0) := by
          cases isLeap (x.y - 1) <;> decide
        cases hL : isLeap (x.y - 1) <;> simp [hL] at hLs hc12 <;> omega

theorem toDayNum_daysAgo (x : Date) (k : Nat) (hv : Valid x)
    (hk : k ≤ toDayNum x) :
    Valid (daysAgo x k) ∧ toDayNum (daysAgo x k) + k = toDayNum x := by
  induction k with
  | zero => exact ⟨hv, rfl⟩
  | succ n ih =>
    have hn : n ≤ toDayNum x := by omega
    obtain ⟨hvn, hsum⟩ := ih hn
    have hpos : 1 ≤ toDayNum (daysAgo x n) := by omega
    have hne : daysAgo x n ≠ ⟨1, 1, 1⟩ := by
      intro heq
      rw [heq] at hpos
      exact absurd hpos (by decide)
    obtain ⟨hv', heq⟩ := toDayNum_prevDay (daysAgo x n) hvn hne
    have hstep : daysAgo x (n + 1) = prevDay (daysAgo x n) := by
      unfold daysAgo
      exact Function.iterate_succ_apply' prevDay n x
    rw [hstep]
    exact ⟨hv', by omega⟩

theorem formatDate_jan1 (y : Nat) :
    toString y ++ "-01-01" = formatDate ⟨y, 1, 1⟩ := by
  show toString y ++ "-01-01" = toString y ++ "-" ++ pad2 1 ++ "-" ++ pad2 1
  have hp : pad2 1 = "01" := by decide
  rw [hp]
  rw [String.append_assoc, String.append_assoc, String.append_assoc]
  congr 1

end JsDate

/-! ### Stability of insertion sort under a key-respecting relation -/

theorem filter_orderedInsert_pos {α : Type} (r : α → α → Prop) [DecidableRel r]
    (p : α → Bool) (a : α) (hpa : p a = true)
    (hskip : ∀ y, ¬ r a y → p y = false) :
    ∀ l : List α, (l.orderedInsert r a).filter p = a :: l.filter p := by
  intro l
  induction l with
  | nil => simp [hpa]
  | cons b l ih =>
    by_cases hab : r a b
    · rw [List.orderedInsert, if_pos hab]
      rw [List.filter_cons, if_pos hpa]
    · rw [List.orderedInsert, if_neg hab]
      have hpb : p b = false := hskip b hab
      rw [List.filter_cons, if_neg (by simp [hpb]), ih]
      rw [List.filter_cons, if_neg (by simp [hpb])]

theorem filter_orderedInsert_neg {α : Type} (r : α → α → Prop) [DecidableRel r]
    (p : α → Bool) (a : α) (hpa : p a = false) :
    ∀ l : List α, (l.orderedInsert r a).filter p = l.filter p := by
  intro l
  induction l with
  | nil => simp [hpa]
  | cons b l ih =>
    by_cases hab : r a b
    · rw [List.orderedInsert, if_pos hab]
      rw [List.filter_cons, if_neg (by simp [hpa])]
    · rw [List.orderedInsert, if_neg hab]
      rw [List.filter_cons, ih, List.filter_cons]

/-- A stable sort moves no element across an equal-keyed one: filtering the
sorted list by any single key gives the same list as filtering the input,
provided the relation holds between any two elements of equal key. -/
theorem filter_insertionSort_of_keyRefl {α : Type} (r : α → α → Prop)
    [DecidableRel r] (p : α → Bool)
    (h : ∀ x y, p x = true → p y = true → r x y) :
    ∀ l : List α, (List.insertionSort r l).filter p = l.filter p := by
  intro l
  induction l with
  | nil => rfl
  | cons b l ih =>
    rw [List.insertionSort]
    cases hpb : p b with
    | true =>
      have hskip : ∀ y, ¬ r b y → p y = false := by
        intro y hy
        cases hpy : p y with
        | false => rfl
        | true => exact absurd (h b y hpb hpy) hy
      rw [filter_orderedInsert_pos r p b hpb hskip, ih,
        List.filter_cons, if_pos hpb]
    | false =>
      rw [filter_orderedInsert_neg r p b hpb, ih,
        List.filter_cons, if_neg (by simp [hpb])]

/-! ### Claim theorems -/

/-- Claim C2: in the timeline viewer, for every loaded row list and selection
set, `applyFilters` sets the visible list to exactly the loaded rows whose
`objectApiName` is in the selection set, in their original order (an in-order
filter, hence a sublist), with an empty selection yielding the empty list and
the loaded rows left untouched. -/
theorem claim_C2 (s : Timeline.TState) :
    ((Timeline.applyFilters s).filteredRecords
        = s.timelineRecords.filter fun r => s.selectedFilters.contains r.objectApiName)
    ∧ List.Sublist (Timeline.applyFilters s).filteredRecords s.timelineRecords
    ∧ (∀ r, r ∈ (Timeline.applyFilters s).filteredRecords ↔
        r ∈ s.timelineRecords ∧ r.objectApiName ∈ s.selectedFilters)
    ∧ (s.selectedFilters = [] → (Timeline.applyFilters s).filteredRecords = [])
    ∧ (Timeline.applyFilters s).timelineRecords = s.timelineRecords := by
  have hmain : (Timeline.applyFilters s).filteredRecords
      = s.timelineRecords.filter fun r => s.selectedFilters.contains r.objectApiName := by
    unfold Timeline.applyFilters
    by_cases h : s.selectedFilters.length = 0
    · rw [if_pos h]
      have h0 : s.selectedFilters = [] := List.length_eq_zero.mp h
      simp [h0]
    · rw [if_neg h]
  refine ⟨hmain, ?_, ?_, ?_, ?_⟩
  · rw [hmain]; exact List.filter_sublist _
  · intro r
    rw [hmain, List.mem_filter]
    simp
  · intro h0
    rw [hmain, h0]
    simp
  · unfold Timeline.applyFilters; split <;> rfl

/-- Witness for C2 at a concrete state with an empty selection set. -/
theorem claim_C2_witness :
    (Timeline.applyFilters { Timeline.initState with
        timelineRecords := [Timeline.rowTask, Timeline.rowCase] }).filteredRecords = [] :=
  (claim_C2 _).2.2.2.1 rfl

/-- Claim C6 as stated is false on the code: after the ordinary initial-load
sequence (available types arrive, then the first page), the selection filter
set contains "Case" although no currently loaded row has that object type —
the filters are initialised from the server's available-type list, not from
the loaded rows. -/
theorem claim_C6_counterexample :
    "Case" ∈ Timeline.c6state.selectedFilters
    ∧ ∀ r ∈ Timeline.c6state.timelineRecords, r.objectApiName ≠ "Case" := by
  decide

/-- Claim C6, amended: after every operation, every value in the selection
filter set references a value of the server-supplied available object types
(`objectTypes`), from the initial state and along every operation sequence. -/
theorem claim_C6_amended :
    Timeline.FiltersAvailable Timeline.initState
    ∧ (∀ (s : Timeline.TState) (op : Timeline.TOp),
        Timeline.FiltersAvailable s → Timeline.FiltersAvailable (Timeline.step s op))
    ∧ ∀ ops : List Timeline.TOp,
        Timeline.FiltersAvailable (Timeline.run Timeline.initState ops) := by
  have base : Timeline.FiltersAvailable Timeline.initState := by
    intro v hv
    simp [Timeline.initState] at hv
  have gen : ∀ (ops : List Timeline.TOp) (s : Timeline.TState),
      Timeline.FiltersAvailable s → Timeline.FiltersAvailable (Timeline.run s ops) := by
    intro ops
    induction ops with
    | nil => intro s h; exact h
    | cons op ops ih =>
      intro s h
      exact ih _ (Timeline.step_preserves_FiltersAvailable s op h)
  exact ⟨base, fun s op h => Timeline.step_preserves_FiltersAvailable s op h,
    fun ops => gen ops _ base⟩

/-- Witness for the amended C6 at a concrete state and operation. -/
theorem claim_C6_amended_witness :
    Timeline.FiltersAvailable
      (Timeline.step Timeline.c6state (Timeline.TOp.filterClick "Case")) :=
  claim_C6_amended.2.1 Timeline.c6state (Timeline.TOp.filterClick "Case") (by decide)

/-- Claim C7: in both components, invoking load-more while the more-available
flag is false issues no remote fetch and returns the state unchanged. -/
theorem claim_C7 :
    (∀ (s : Timeline.TState) (resp : Except JsErr (List Timeline.Row)),
      s.hasMoreRecords = false → Timeline.handleLoadMore s resp = (s, false))
    ∧ (∀ (s : Report.RState) (resp : Except JsErr Report.Page),
      s.hasMore = false → Report.handleLoadMore s resp = (s, none)) := by
  constructor
  · intro s resp h
    unfold Timeline.handleLoadMore
    rw [h]
    simp
  · intro s resp h
    unfold Report.handleLoadMore
    rw [h]
    simp

/-- Witness for C7 at concrete no-more states of both components. -/
theorem claim_C7_witness :
    Timeline.handleLoadMore Timeline.initState (Except.ok [Timeline.rowTask])
      = (Timeline.initState, false)
    ∧ Report.handleLoadMore Report.initState
        (Except.ok { records := [Report.rowStatus], hasMore := true })
      = (Report.initState, none) :=
  ⟨claim_C7.1 _ _ rfl, claim_C7.2 _ _ rfl⟩

/-- Claim C1 as stated is false on the code.  Timeline viewer: a successful
load-more at offset 50 (of 200 total, page size 50) returning a single row —
fewer rows than requested — leaves the more-available flag `true`, so "has
more becomes false when a page returns fewer rows than requested" fails.
History report: a successful load-more returning one row advances the offset
to 50 (the fixed page size) while the loaded rows number 2, so "offset equals
the sum of the returned row counts" fails. -/
theorem claim_C1_counterexample :
    (((Timeline.handleLoadMore Timeline.midState
          (Except.ok [Timeline.rowTask])).1).hasMoreRecords = true
      ∧ 1 < Timeline.midState.maxRecords)
    ∧ (((Report.handleLoadMore Report.midState
          (Except.ok { records := [Report.rowOwner], hasMore := false })).1).currentOffset
        = 50
      ∧ ((Report.handleLoadMore Report.midState
          (Except.ok { records := [Report.rowOwner], hasMore := false })).1).allLoadedData.length
        = 2
      ∧ (50 : Nat) ≠ 2) := by
  decide

/-- Claim C1, amended.  Timeline viewer: the offset after the initial load is
the returned row count, each gated load-more adds the returned row count (so
after any run the offset is the initial offset plus the sum of the fetched
page sizes), and the flag becomes false exactly when a page comes back empty
or the offset reaches the known total.  History report: the apply action
resets the offset to 0 while storing the first page, each load-more advances
the offset by the fixed page size 50 regardless of the returned row count (so
after a run of fetches the offset grows by 50 per fetched page), and the
more-available flag is the value returned by the server. -/
theorem claim_C1_amended :
    (∀ (s : Timeline.TState) (data : List Timeline.Row),
      (Timeline.wiredTimeline s (Except.ok data)).currentOffset = data.length
      ∧ ((Timeline.wiredTimeline s (Except.ok data)).hasMoreRecords = true ↔
          data.length < s.totalRecordCount))
    ∧ (∀ (s : Timeline.TState) (p : List Timeline.Row), s.hasMoreRecords = true →
        ((Timeline.handleLoadMore s (Except.ok p)).1.currentOffset
            = s.currentOffset + p.length
        ∧ ((Timeline.handleLoadMore s (Except.ok p)).1.hasMoreRecords = false ↔
            (p = [] ∨ s.totalRecordCount ≤ s.currentOffset + p.length))))
    ∧ (∀ (s : Timeline.TState) (ps : List (List Timeline.Row)),
        ((Timeline.tlRun s ps).1).currentOffset
          = s.currentOffset + ((Timeline.tlRun s ps).2).sum)
    ∧ (∀ (s : Report.RState) (page : Report.Page) (count : Nat),
        (Report.handleApplyFilters s (Except.ok (page, count))).currentOffset = 0
        ∧ (Report.handleApplyFilters s (Except.ok (page, count))).hasMore = page.hasMore
        ∧ (Report.handleApplyFilters s (Except.ok (page, count))).allLoadedData
            = page.records)
    ∧ (∀ (s : Report.RState) (page : Report.Page),
        s.hasMore = true → s.isTableLoading = false →
        ((Report.handleLoadMore s (Except.ok page)).1.currentOffset
            = s.currentOffset + Report.pageSize
        ∧ (Report.handleLoadMore s (Except.ok page)).1.hasMore = page.hasMore
        ∧ (Report.handleLoadMore s (Except.ok page)).1.allLoadedData
            = s.allLoadedData ++ page.records))
    ∧ (∀ (s : Report.RState) (ps : List Report.Page),
        ((Report.repRun s ps).1).currentOffset
          = s.currentOffset + Report.pageSize * (Report.repRun s ps).2) := by
  refine ⟨?_, ?_, ?_, ?_, ?_, ?_⟩
  · intro s data
    exact ⟨rfl, by simp [Timeline.wiredTimeline]⟩
  · intro s p h
    exact ⟨Timeline.loadMoreOk_offset s p h,
      Timeline.loadMoreOk_hasMore_iff s p h⟩
  · intro s ps
    exact Timeline.tlRun_offset ps s
  · intro s page count
    exact ⟨rfl, rfl, rfl⟩
  · intro s page h1 h2
    obtain ⟨ha, hb, hc, _, _⟩ := Report.loadMoreOk_fields s page h1 h2
    exact ⟨ha, hb, hc⟩
  · intro s ps
    exact Report.repRun_offset ps s

/-- Witness for the amended C1 at concrete states: one viewer load-more from
offset 50 with a 20-row page of 120 total, and one report load-more. -/
theorem claim_C1_amended_witness :
    ((Timeline.handleLoadMore
        { Timeline.midState with totalRecordCount := 120, currentOffset := 100 }
        (Except.ok (List.replicate 20 Timeline.rowTask))).1.currentOffset = 120
      ∧ ((Timeline.handleLoadMore
        { Timeline.midState with totalRecordCount := 120, currentOffset := 100 }
        (Except.ok (List.replicate 20 Timeline.rowTask))).1.hasMoreRecords = false ↔
          (List.replicate 20 Timeline.rowTask = [] ∨ (120 : Nat) ≤ 100 + 20)))
    ∧ (Report.handleLoadMore Report.midState
        (Except.ok { records := [Report.rowOwner], hasMore := true })).1.currentOffset
      = 0 + Report.pageSize := by
  constructor
  · have h := claim_C1_amended.2.1
      { Timeline.midState with totalRecordCount := 120, currentOffset := 100 }
      (List.replicate 20 Timeline.rowTask) rfl
    simpa using h
  · exact (claim_C1_amended.2.2.2.2.1 Report.midState
      { records := [Report.rowOwner], hasMore := true } rfl rfl).1

/-- Claim C4 as stated is false on the code: `handleApplyFilters` resets the
loaded dataset (with the has-more flag and total count) *before* the two
calls, so on failure these fields have been assigned — the previous dataset
is not retained. -/
theorem claim_C4_counterexample :
    (Report.handleApplyFilters Report.midState (Except.error errBoom)).allLoadedData
      ≠ Report.midState.allLoadedData := by
  decide

/-- Claim C4, amended: the two calls are awaited jointly (`Promise.all`), and
the loaded dataset, has-more flag and total count are assigned from the call
results only when both calls succeed; when either call fails all three hold
the reset values (empty dataset, `false`, no count) — never data from a
partially completed fetch — and a non-empty error message is surfaced. -/
theorem claim_C4_amended :
    (∀ (s : Report.RState) (e : JsErr),
      (Report.handleApplyFilters s (Except.error e)).allLoadedData = []
      ∧ (Report.handleApplyFilters s (Except.error e)).tableData = []
      ∧ (Report.handleApplyFilters s (Except.error e)).hasMore = false
      ∧ (Report.handleApplyFilters s (Except.error e)).totalCount = none
      ∧ (Report.handleApplyFilters s (Except.error e)).errorMessage = extractMessage e
      ∧ (Report.handleApplyFilters s (Except.error e)).errorMessage ≠ "")
    ∧ (∀ (s : Report.RState) (page : Report.Page) (count : Nat),
      (Report.handleApplyFilters s (Except.ok (page, count))).allLoadedData = page.records
      ∧ (Report.handleApplyFilters s (Except.ok (page, count))).hasMore = page.hasMore
      ∧ (Report.handleApplyFilters s (Except.ok (page, count))).totalCount = some count
      ∧ (Report.handleApplyFilters s (Except.ok (page, count))).errorMessage = ""
      ∧ (Report.handleApplyFilters s (Except.ok (page, count))).hasSearched = true) := by
  constructor
  · intro s e
    exact ⟨rfl, rfl, rfl, rfl, rfl, extractMessage_ne_empty e⟩
  · intro s page count
    exact ⟨rfl, rfl, rfl, rfl, rfl⟩

/-- Claim C10: in the history report, a failed load-more leaves the cursor
advanced by the fixed page size — it was incremented before the fetch and is
not rolled back — while the loaded dataset and visible rows are unchanged;
the next load-more then requests the page after the failed one (offset +100),
appending only that page's rows, so the failed page's rows are skipped. -/
theorem claim_C10 (s : Report.RState) (e : JsErr) (page : Report.Page)
    (h1 : s.hasMore = true) (h2 : s.isTableLoading = false) :
    (Report.handleLoadMore s (Except.error e)).1.currentOffset
        = s.currentOffset + Report.pageSize
    ∧ (Report.handleLoadMore s (Except.error e)).2
        = some (s.currentOffset + Report.pageSize)
    ∧ (Report.handleLoadMore s (Except.error e)).1.allLoadedData = s.allLoadedData
    ∧ (Report.handleLoadMore s (Except.error e)).1.tableData = s.tableData
    ∧ (Report.handleLoadMore s (Except.error e)).1.hasMore = true
    ∧ (Report.handleLoadMore
        (Report.handleLoadMore s (Except.error e)).1 (Except.ok page)).2
      = some (s.currentOffset + 2 * Report.pageSize)
    ∧ (Report.handleLoadMore
        (Report.handleLoadMore s (Except.error e)).1 (Except.ok page)).1.allLoadedData
      = s.allLoadedData ++ page.records := by
  obtain ⟨ha, hb, hc, hd, he, hf⟩ := Report.loadMoreErr_fields s e h1 h2
  have hd2 : (Report.handleLoadMore s (Except.error e)).1.hasMore = true := by
    rw [hd, h1]
  obtain ⟨ga, gb, gc, gd, ge⟩ :=
    Report.loadMoreOk_fields (Report.handleLoadMore s (Except.error e)).1 page hd2 he
  refine ⟨ha, hf, hb, hc, hd2, ?_, ?_⟩
  · rw [ge, ha]
    have : s.currentOffset + Report.pageSize + Report.pageSize
        = s.currentOffset + 2 * Report.pageSize := by ring
    rw [this]
  · rw [gc, hb]

/-- Claim C3: in the history report, applying the client-side filters leaves
`allLoadedData` unchanged and sets `tableData` to exactly the loaded rows
whose `fieldChanged` (resp. `changedBy`) contains the corresponding filter
string as a case-insensitive substring, in order (a sublist); with both
filter strings empty the displayed subset is the full loaded dataset. -/
theorem claim_C3 (s : Report.RState) :
    (Report.applyClientFilters s).allLoadedData = s.allLoadedData
    ∧ List.Sublist (Report.applyClientFilters s).tableData s.allLoadedData
    ∧ (∀ r, r ∈ (Report.applyClientFilters s).tableData ↔
        r ∈ s.allLoadedData ∧ Report.SpecMatch s.fieldFilter r.fieldChanged
          ∧ Report.SpecMatch s.changedByFilter r.changedBy)
    ∧ (s.fieldFilter = "" → s.changedByFilter = "" →
        (Report.applyClientFilters s).tableData = s.allLoadedData) := by
  refine ⟨rfl, ?_, ?_, ?_⟩
  · show List.Sublist (Report.clientFiltered s) s.allLoadedData
    exact (Report.applyChangedByFilter_sublist _ _).trans
      (Report.applyFieldFilter_sublist _ _)
  · intro r
    show r ∈ Report.clientFiltered s ↔ _
    unfold Report.clientFiltered
    rw [Report.mem_applyChangedByFilter, Report.mem_applyFieldFilter]
    tauto
  · intro h1 h2
    show Report.clientFiltered s = s.allLoadedData
    unfold Report.clientFiltered
    rw [h1, h2]
    simp [Report.applyFieldFilter, Report.applyChangedByFilter]

/-- Witness for C3: with both filters empty on a concrete two-row dataset the
displayed subset is the full dataset. -/
theorem claim_C3_witness :
    (Report.applyClientFilters { Report.initState with
        allLoadedData := [Report.rowStatus, Report.rowOwner] }).tableData
      = [Report.rowStatus, Report.rowOwner] :=
  (claim_C3 _).2.2.2 rfl rfl

/-- Claim C5: selecting a date preset sets the end date to today, and the
start date to the valid date exactly k days before today (k = 6, 29, 89 for
the 7/30/90-day presets, "exactly k days before" meaning its civil day number
is today's minus k), to January 1 of the current year for year-to-date, and
to the same month and day one calendar year back for the yearly preset
whenever that date exists.  Dates are modelled at civil-day granularity on a
DST-free clock. -/
theorem claim_C5 (s : Report.RState) (today : JsDate.Date)
    (hv : JsDate.Valid today) (h90 : 90 ≤ JsDate.toDayNum today) :
    ((Report.handleDatePreset s "last7" today).endDate = JsDate.formatDate today
      ∧ (Report.handleDatePreset s "last30" today).endDate = JsDate.formatDate today
      ∧ (Report.handleDatePreset s "last90" today).endDate = JsDate.formatDate today
      ∧ (Report.handleDatePreset s "lastYear" today).endDate = JsDate.formatDate today
      ∧ (Report.handleDatePreset s "ytd" today).endDate = JsDate.formatDate today)
    ∧ ((Report.handleDatePreset s "last7" today).startDate
          = JsDate.formatDate (JsDate.daysAgo today 6)
        ∧ JsDate.Valid (JsDate.daysAgo today 6)
        ∧ JsDate.toDayNum (JsDate.daysAgo today 6) + 6 = JsDate.toDayNum today)
    ∧ ((Report.handleDatePreset s "last30" today).startDate
          = JsDate.formatDate (JsDate.daysAgo today 29)
        ∧ JsDate.Valid (JsDate.daysAgo today 29)
        ∧ JsDate.toDayNum (JsDate.daysAgo today 29) + 29 = JsDate.toDayNum today)
    ∧ ((Report.handleDatePreset s "last90" today).startDate
          = JsDate.formatDate (JsDate.daysAgo today 89)
        ∧ JsDate.Valid (JsDate.daysAgo today 89)
        ∧ JsDate.toDayNum (JsDate.daysAgo today 89) + 89 = JsDate.toDayNum today)
    ∧ ((Report.handleDatePreset s "ytd" today).startDate
        = JsDate.formatDate ⟨today.y, 1, 1⟩)
    ∧ (2 ≤ today.y →
        today.d ≤ JsDate.monthLen (JsDate.isLeap (today.y - 1)) today.m →
        ((Report.handleDatePreset s "lastYear" today).startDate
            = JsDate.formatDate ⟨today.y - 1, today.m, today.d⟩
          ∧ JsDate.Valid ⟨today.y - 1, today.m, today.d⟩)) := by
  obtain ⟨hd6, hs6⟩ := JsDate.toDayNum_daysAgo today 6 hv (by omega)
  obtain ⟨hd29, hs29⟩ := JsDate.toDayNum_daysAgo today 29 hv (by omega)
  obtain ⟨hd89, hs89⟩ := JsDate.toDayNum_daysAgo today 89 hv (by omega)
  refine ⟨⟨rfl, rfl, rfl, rfl, rfl⟩, ⟨rfl, hd6, hs6⟩, ⟨rfl, hd29, hs29⟩,
    ⟨rfl, hd89, hs89⟩, ?_, ?_⟩
  · exact JsDate.formatDate_jan1 today.y
  · intro hy2 hfeb
    constructor
    · show JsDate.formatDate (JsDate.setYearSub1 today) = _
      unfold JsDate.setYearSub1
      rw [if_pos hfeb]
    · obtain ⟨hy, hm1, hm2, hd1, hd2⟩ := hv
      exact ⟨show 1 ≤ today.y - 1 by omega, hm1, hm2, hd1, hfeb⟩

/-- Witness for C5 at the concrete date 2026-10-12. -/
theorem claim_C5_witness :
    (Report.handleDatePreset Report.initState "last90" ⟨2026, 10, 12⟩).startDate
        = JsDate.formatDate (JsDate.daysAgo ⟨2026, 10, 12⟩ 89)
    ∧ JsDate.toDayNum (JsDate.daysAgo ⟨2026, 10, 12⟩ 89) + 89
        = JsDate.toDayNum ⟨2026, 10, 12⟩
    ∧ (Report.handleDatePreset Report.initState "ytd" ⟨2026, 10, 12⟩).startDate
        = JsDate.formatDate ⟨2026, 1, 1⟩
    ∧ (Report.handleDatePreset Report.initState "lastYear" ⟨2026, 10, 12⟩).startDate
        = JsDate.formatDate ⟨2025, 10, 12⟩ := by
  have h := claim_C5 Report.initState ⟨2026, 10, 12⟩ (by decide) (by decide)
  exact ⟨h.2.2.2.1.1, h.2.2.2.1.2.2, h.2.2.2.2.1,
    (h.2.2.2.2.2 (by decide) (by decide)).1⟩

/-- Claim C9: sorting a column reorders only the visible (client-filtered)
rows — the full loaded dataset is untouched — producing a permutation of the
previous visible rows, sorted ascending/descending by the lowercased string
value of the column with null/missing values treated as the empty string,
and stably: rows of equal sort key keep their relative order (their
key-filtered subsequence is unchanged). -/
theorem claim_C9 (s : Report.RState) (field dir : String) :
    (Report.handleSort s field dir).allLoadedData = s.allLoadedData
    ∧ List.Perm (Report.handleSort s field dir).tableData s.tableData
    ∧ List.Sorted (Report.sortRel field dir) (Report.handleSort s field dir).tableData
    ∧ (∀ k : String,
        ((Report.handleSort s field dir).tableData.filter
            fun r => Report.sortVal field r == k)
          = s.tableData.filter fun r => Report.sortVal field r == k)
    ∧ (∀ r r' : Report.RRow, Report.getField r field = none →
        Report.getField r' field = some "" →
          Report.sortVal field r = Report.sortVal field r') := by
  refine ⟨rfl, ?_, ?_, ?_, ?_⟩
  · exact List.perm_insertionSort _ _
  · exact List.sorted_insertionSort _ _
  · intro k
    apply filter_insertionSort_of_keyRefl
    intro x y hx hy
    have hxk : Report.sortVal field x = k := by simpa using hx
    have hyk : Report.sortVal field y = k := by simpa using hy
    exact Report.sortRel_of_eqVal field dir (hxk.trans hyk.symm)
  · intro r r' h h'
    unfold Report.sortVal
    rw [h, h']
    rfl

/-- Witness for C9: a null column value sorts exactly like an empty-string
column value on concrete rows. -/
theorem claim_C9_witness :
    Report.sortVal "fieldChanged" Report.rowNullField
      = Report.sortVal "fieldChanged" Report.rowEmptyField :=
  (claim_C9 Report.midState "fieldChanged" "asc").2.2.2.2
    Report.rowNullField Report.rowEmptyField rfl rfl

/-- Claim C8: in the config modal, when the selected child object's entry in
the server-supplied available list has no (falsy) precomputed relationship
field, an inline validation error is set, the relationship field and label
are cleared, no save call is issued, and save is disabled; moreover save
stays disabled in any state whose relationship error is present.  The
handler is a total function — no exception path exists. -/
theorem claim_C8 (s : Config.CState) (v : String) (obj : Config.AvailObj)
    (hfind : s.availableObjects.find? (fun o => o.value = v) = some obj)
    (hnone : Config.falsyStr obj.relationshipField = true) :
    ((Config.handleObjectChange s v).1.relationshipError ≠ ""
      ∧ (Config.handleObjectChange s v).1.selectedRelationshipField = ""
      ∧ (Config.handleObjectChange s v).1.childObjectLabel = ""
      ∧ (Config.handleObjectChange s v).2 = false
      ∧ Config.isSaveDisabled (Config.handleObjectChange s v).1 = true)
    ∧ ∀ t : Config.CState, t.relationshipError ≠ "" →
        Config.isSaveDisabled t = true := by
  have hblock : ∀ t : Config.CState, t.relationshipError ≠ "" →
      Config.isSaveDisabled t = true := by
    intro t ht
    unfold Config.isSaveDisabled Config.hasRelationshipError
    simp [ht]
  refine ⟨?_, hblock⟩
  unfold Config.handleObjectChange
  rw [hfind]
  dsimp only
  rw [if_pos hnone]
  refine ⟨?_, rfl, rfl, rfl, ?_⟩
  · intro h
    have h2 := congrArg String.length h
    simp [String.length_append] at h2
    exact absurd h2.2 (by decide)
  · apply hblock
    intro h
    have h2 := congrArg String.length h
    simp [String.length_append] at h2
    exact absurd h2.2 (by decide)

/-- Witness for C8: selecting the concrete child object with no relationship
field sets the error, clears the fields, issues no save, and blocks save. -/
theorem claim_C8_witness :
    (Config.handleObjectChange Config.sampleState "Gadget__c").1.relationshipError ≠ ""
    ∧ (Config.handleObjectChange Config.sampleState "Gadget__c").2 = false
    ∧ Config.isSaveDisabled
        (Config.handleObjectChange Config.sampleState "Gadget__c").1 = true := by
  obtain ⟨⟨h1, h2, h3, h4, h5⟩, h6⟩ :=
    claim_C8 Config.sampleState "Gadget__c"
      { label := "Gadget", value := "Gadget__c", relationshipField := none }
      (by decide) rfl
  exact ⟨h1, h4, h5⟩

/-- Witness for C10 at a concrete mid-pagination report state. -/
theorem claim_C10_witness :
    (Report.handleLoadMore Report.midState (Except.error errBoom)).1.currentOffset
        = Report.midState.currentOffset + Report.pageSize
    ∧ (Report.handleLoadMore Report.midState (Except.error errBoom)).1.allLoadedData
        = Report.midState.allLoadedData
    ∧ (Report.handleLoadMore
        (Report.handleLoadMore Report.midState (Except.error errBoom)).1
        (Except.ok { records := [Report.rowOwner], hasMore := false })).2
      = some (Report.midState.currentOffset + 2 * Report.pageSize) := by
  obtain ⟨ha, hb, hc, hd, he, hf, hg⟩ :=
    claim_C10 Report.midState errBoom
      { records := [Report.rowOwner], hasMore := false } rfl rfl
  exact ⟨ha, hc, hf⟩

end HierarchySpec
